import Mathlib

/-!
Verification of `main.py` (class `MCAPVisualizer`) of the MCAP_Data_Visualizer
repository, against its natural-language specification.

The Python source is shallowly embedded below.  Numeric payloads decoded from
the log are modelled as rationals (exact arithmetic in place of IEEE floats;
the properties checked here are scale/selection/ordering facts whose margins
dwarf floating-point rounding).  Python `min` over an empty sequence and
out-of-range list indexing, which raise exceptions, are modelled by `Option`
with `none` for the raised error.
-/

namespace MCAPVisualizer

/-- A robot or obstacle pose `(x, y, theta)` as decoded from the log
(`[data["x"], data["y"], data["theta"]]` in `parse_mcap`). -/
structure Pose where
  x : ℚ
  y : ℚ
  theta : ℚ
  deriving DecidableEq, Repr

/-- One entry of a `tracked_objects` message: a pose plus `(x, y)` extents,
as built in `parse_mcap` (`{"pose": [...], "extents": (...)}`). -/
structure Obstacle where
  pose : Pose
  extents : ℚ × ℚ
  deriving DecidableEq, Repr

/-- A decoded MCAP record, tagged by its channel topic.  `parse_mcap` reads
`channel.topic` and the JSON payload; topics other than the three recognized
ones fall through all branches (`other`).  `publishTime` is
`message.publish_time` (an integer count of nanoseconds in the MCAP format,
carried here as a rational). -/
inductive McapRecord where
  | odometry (x y theta : ℚ) (publishTime : ℚ)
  | trackedObjects (objects : List Obstacle)
  | robotExtents (x y : ℚ)
  | other
  deriving DecidableEq, Repr

/-- Python `round` to the nearest integer, ties to even (banker's rounding),
on exact rationals. -/
def roundHalfEven (q : ℚ) : ℤ :=
  let f := ⌊q⌋
  let r := q - f
  if r < 1 / 2 then f
  else if 1 / 2 < r then f + 1
  else if f % 2 = 0 then f else f + 1

/-- Python `round(q, 3)`: round to three decimal places, ties to even. -/
def pyRound3 (q : ℚ) : ℚ := (roundHalfEven (q * 1000) : ℚ) / 1000

/-- The value `parse_mcap` appends to `self.timestamps` for an odometry
record: `round(message.publish_time*10e-6, 3)`.  The Python literal `10e-6`
denotes 1e-5, modelled exactly as `1/100000`. -/
def appendedTimestamp (publishTime : ℚ) : ℚ :=
  pyRound3 (publishTime * (1 / 100000))

/-- Modelled from the spec: the spec requires the appended timestamp to be
"the record's publish time (converted to seconds, rounded to millisecond
precision)".  `message.publish_time` is in nanoseconds per the MCAP format
(the decoding itself lives in the external `mcap` library, not under `src/`),
so seconds are `publishTime / 10^9`, then rounded to three decimals. -/
def specSecondsTimestamp (publishTime : ℚ) : ℚ :=
  pyRound3 (publishTime / 1000000000)

/-- The mutable attributes of `MCAPVisualizer` populated by `parse_mcap`
(`self.odometry`, `self.tracked_objects`, `self.robot_extents`,
`self.timestamps`). -/
structure VizState where
  odometry : List Pose
  tracked_objects : List (List Obstacle)
  robot_extents : Option (ℚ × ℚ)
  timestamps : List ℚ
  deriving DecidableEq, Repr

/-- The attribute values set in `__init__`. -/
def initState : VizState :=
  { odometry := [], tracked_objects := [], robot_extents := none, timestamps := [] }

/-- One iteration of the `for schema, channel, message in reader.iter_messages()`
loop body of `parse_mcap`. -/
def parseStep (s : VizState) (r : McapRecord) : VizState :=
  match r with
  | .odometry x y theta t =>
      { s with
        odometry := s.odometry ++ [⟨x, y, theta⟩]
        timestamps := s.timestamps ++ [appendedTimestamp t] }
  | .trackedObjects objects =>
      { s with tracked_objects := s.tracked_objects ++ [objects] }
  | .robotExtents x y =>
      { s with robot_extents := some (x, y) }
  | .other => s

/-- `parse_mcap`: fold the loop body over the record stream, starting from the
freshly constructed object. -/
def parse_mcap (records : List McapRecord) : VizState :=
  records.foldl parseStep initState

/-- Number of records on the `odometry` topic. -/
def countOdometry (records : List McapRecord) : ℕ :=
  (records.filter fun r => match r with | .odometry _ _ _ _ => true | _ => false).length

/-- Number of records on the `tracked_objects` topic. -/
def countTracked (records : List McapRecord) : ℕ :=
  (records.filter fun r => match r with | .trackedObjects _ => true | _ => false).length

/-- Modelled from the spec: a well-formed log.  Payloads are well-typed by
construction in this embedding; what remains of the spec's frame model
("one discrete animation step ... corresponding to one ingested odometry
sample and its associated obstacle snapshot") is that odometry samples and
obstacle snapshots come in equal numbers. -/
def WellFormed (records : List McapRecord) : Prop :=
  countOdometry records = countTracked records

theorem parse_foldl_lengths (records : List McapRecord) :
    ∀ s : VizState,
      (records.foldl parseStep s).timestamps.length
          = s.timestamps.length + countOdometry records ∧
      (records.foldl parseStep s).odometry.length
          = s.odometry.length + countOdometry records ∧
      (records.foldl parseStep s).tracked_objects.length
          = s.tracked_objects.length + countTracked records := by
  induction records with
  | nil => intro s; simp [countOdometry, countTracked]
  | cons r rest ih =>
      intro s
      obtain ⟨h1, h2, h3⟩ := ih (parseStep s r)
      refine ⟨?_, ?_, ?_⟩ <;>
        cases r <;>
          simp [List.foldl_cons, parseStep, countOdometry, countTracked,
            List.filter_cons] at h1 h2 h3 ⊢ <;>
          omega

/-- C10: after `parse_mcap` processes any record stream whatsoever,
`len(self.timestamps) == len(self.odometry)`: both lists receive exactly one
append per `odometry`-topic record and are untouched by every other record,
so both lengths equal the number of odometry records — independent of how
many `tracked_objects` records the log contains. -/
theorem timestamps_odometry_paired (records : List McapRecord) :
    (parse_mcap records).timestamps.length = (parse_mcap records).odometry.length ∧
    (parse_mcap records).timestamps.length = countOdometry records := by
  obtain ⟨h1, h2, _⟩ := parse_foldl_lengths records initState
  have e1 : initState.timestamps.length = 0 := rfl
  have e2 : initState.odometry.length = 0 := rfl
  rw [parse_mcap]
  omega

/-- C3: for every well-formed log (equally many odometry samples and
obstacle snapshots, payloads decodable), after full ingestion by `parse_mcap`
the three sequences are parallel:
`len(self.timestamps) == len(self.odometry) == len(self.tracked_objects)`. -/
theorem parse_mcap_parallel_lengths (records : List McapRecord)
    (h : WellFormed records) :
    (parse_mcap records).timestamps.length = (parse_mcap records).odometry.length ∧
    (parse_mcap records).odometry.length = (parse_mcap records).tracked_objects.length := by
  obtain ⟨h1, h2, h3⟩ := parse_foldl_lengths records initState
  have e1 : initState.timestamps.length = 0 := rfl
  have e2 : initState.odometry.length = 0 := rfl
  have e3 : initState.tracked_objects.length = 0 := rfl
  rw [WellFormed] at h
  rw [parse_mcap]
  omega

/-- A small well-formed log: one extents record, one odometry sample, one
obstacle snapshot. -/
def witnessLog : List McapRecord :=
  [.robotExtents 1 1, .odometry 0 0 0 0, .trackedObjects []]

/-- Witness for C3 on a concrete well-formed log. -/
theorem parse_mcap_parallel_lengths_witness :
    WellFormed witnessLog ∧
    ((parse_mcap witnessLog).timestamps.length = (parse_mcap witnessLog).odometry.length ∧
     (parse_mcap witnessLog).odometry.length = (parse_mcap witnessLog).tracked_objects.length) :=
  ⟨rfl, parse_mcap_parallel_lengths witnessLog rfl⟩

/-- C2: the value appended to `self.timestamps` is
`round(message.publish_time*10e-6, 3)`, i.e. the publish time scaled by 1e-5.
For publish time 10^9 ns (= 1 second) the code appends `10000.0`, while the
spec's "publish time converted to seconds, rounded to millisecond precision"
is `1.0`: the code's scale factor is 10^4 times too large. -/
theorem timestamp_scale_divergence :
    (parse_mcap [.odometry 0 0 0 1000000000]).timestamps = [10000] ∧
    specSecondsTimestamp 1000000000 = 1 ∧
    appendedTimestamp 1000000000 ≠ specSecondsTimestamp 1000000000 := by
  refine ⟨?_, ?_, ?_⟩ <;>
    norm_num [parse_mcap, parseStep, initState, appendedTimestamp,
      specSecondsTimestamp, pyRound3, roundHalfEven]

/-- Python's builtin `min(seq, key=k)` on a nonempty sequence `b :: l`:
a linear scan keeping the current best, replacing it only when the new
element's key is strictly smaller — so the first minimizer wins ties. -/
def pyMinBy {α : Type*} (key : α → ℚ) (b : α) (l : List α) : α :=
  l.foldl (fun best q => if key q < key best then q else best) b

/-- The squared Euclidean offset `(p[0] - x)**2 + (p[1] - y)**2` appearing
under `np.sqrt` in the key of `find_nearest_object`. -/
def dist2 (x y : ℚ) (p : ℚ × ℚ) : ℚ := (p.1 - x) ^ 2 + (p.2 - y) ^ 2

/-- `find_nearest_object(self, x, y, points)`:
`min(points, key=lambda p: np.sqrt((p[0] - x) ** 2 + (p[1] - y) ** 2))`.
Python's `min` raises `ValueError` on an empty sequence, modelled as `none`.
The source's key applies `np.sqrt` to `dist2`; the square root is strictly
increasing on nonnegative inputs, so comparing the squared offsets selects
the same element, ties included (the correctness theorem below is stated
with the square-root distances). -/
def find_nearest_object (x y : ℚ) (points : List (ℚ × ℚ)) : Option (ℚ × ℚ) :=
  match points with
  | [] => none
  | p :: ps => some (pyMinBy (dist2 x y) p ps)

theorem pyMinBy_first_argmin {α : Type*} (key : α → ℚ) :
    ∀ (l : List α) (b : α),
      ∃ i r, (b :: l).get? i = some r ∧ pyMinBy key b l = r ∧
        (∀ q ∈ b :: l, key r ≤ key q) ∧
        (∀ j q, j < i → (b :: l).get? j = some q → key r < key q) := by
  intro l
  induction l with
  | nil =>
      intro b
      refine ⟨0, b, rfl, rfl, ?_, ?_⟩
      · intro q hq; simp at hq; simp [hq]
      · intro j q hj; omega
  | cons a l ih =>
      intro b
      by_cases hab : key a < key b
      · obtain ⟨i, r, hget, heq, hmin, hlt⟩ := ih a
        refine ⟨i + 1, r, hget, ?_, ?_, ?_⟩
        · simp [pyMinBy, hab] at heq ⊢; exact heq
        · intro q hq
          rcases List.mem_cons.mp hq with hq | hq
          · rw [hq]
            exact le_of_lt (lt_of_le_of_lt (hmin a (List.mem_cons_self a l)) hab)
          · exact hmin q hq
        · intro j q hj hq
          match j with
          | 0 =>
              simp at hq
              rw [← hq]
              exact lt_of_le_of_lt (hmin a (List.mem_cons_self a l)) hab
          | j' + 1 =>
              exact hlt j' q (by omega) hq
      · push_neg at hab
        obtain ⟨i, r, hget, heq, hmin, hlt⟩ := ih b
        have heq' : pyMinBy key b (a :: l) = r := by
          simp [pyMinBy, not_lt.mpr hab] at heq ⊢
          simpa [if_neg (not_lt.mpr hab)] using heq
        match i, hget with
        | 0, hget =>
            have hr : r = b := by simpa using hget.symm
            refine ⟨0, r, by simp [hr], heq', ?_, ?_⟩
            · intro q hq
              rcases List.mem_cons.mp hq with hq | hq
              · rw [hq]; exact hmin b (List.mem_cons_self b l)
              · rcases List.mem_cons.mp hq with hq | hq
                · rw [hq, hr]; exact hab
                · exact hmin q (List.mem_cons_of_mem b hq)
            · intro j q hj; omega
        | i' + 1, hget =>
            have hget' : l.get? i' = some r := hget
            have hrb : key r < key b := hlt 0 b (by omega) rfl
            refine ⟨i' + 2, r, hget', heq', ?_, ?_⟩
            · intro q hq
              rcases List.mem_cons.mp hq with hq | hq
              · rw [hq]; exact le_of_lt hrb
              · rcases List.mem_cons.mp hq with hq | hq
                · rw [hq]; exact le_trans (le_of_lt hrb) hab
                · exact hmin q (List.mem_cons_of_mem b hq)
            · intro j q hj hq
              match j with
              | 0 =>
                  simp at hq; rw [← hq]; exact hrb
              | 1 =>
                  simp at hq; rw [← hq]; exact lt_of_lt_of_le hrb hab
              | j'' + 2 =>
                  exact hlt (j'' + 1) q (by omega) hq

theorem dist2_nonneg (x y : ℚ) (p : ℚ × ℚ) : (0 : ℝ) ≤ (dist2 x y p : ℝ) := by
  have h : (0 : ℚ) ≤ dist2 x y p := by unfold dist2; positivity
  exact_mod_cast h

theorem sqrt_dist2_le (x y : ℚ) (p q : ℚ × ℚ) (h : dist2 x y p ≤ dist2 x y q) :
    Real.sqrt (dist2 x y p : ℝ) ≤ Real.sqrt (dist2 x y q : ℝ) :=
  Real.sqrt_le_sqrt (by exact_mod_cast h)

theorem sqrt_dist2_lt (x y : ℚ) (p q : ℚ × ℚ) (h : dist2 x y p < dist2 x y q) :
    Real.sqrt (dist2 x y p : ℝ) < Real.sqrt (dist2 x y q : ℝ) :=
  Real.sqrt_lt_sqrt (dist2_nonneg x y p) (by exact_mod_cast h)

/-- C1: on every nonempty list of obstacle centers, `find_nearest_object`
returns a point of the list (at some index `i`) whose Euclidean distance to
the query `(x, y)` is ≤ that of every point of the list; every point at an
index strictly before `i` has strictly larger distance, so the returned
point is the earliest minimizer (stable tie-break of the linear scan); and
on a singleton list it returns that single point. -/
theorem find_nearest_object_correct (x y : ℚ) (points : List (ℚ × ℚ))
    (h : points ≠ []) :
    ∃ p i, find_nearest_object x y points = some p ∧
      points.get? i = some p ∧
      (∀ q ∈ points, Real.sqrt (dist2 x y p : ℝ) ≤ Real.sqrt (dist2 x y q : ℝ)) ∧
      (∀ j q, j < i → points.get? j = some q →
        Real.sqrt (dist2 x y p : ℝ) < Real.sqrt (dist2 x y q : ℝ)) ∧
      (∀ p0, points = [p0] → p = p0) := by
  match points, h with
  | b :: ps, _ =>
      obtain ⟨i, r, hget, heq, hmin, hlt⟩ := pyMinBy_first_argmin (dist2 x y) ps b
      refine ⟨r, i, ?_, hget, ?_, ?_, ?_⟩
      · simp [find_nearest_object, heq]
      · intro q hq; exact sqrt_dist2_le x y r q (hmin q hq)
      · intro j q hj hq; exact sqrt_dist2_lt x y r q (hlt j q hj hq)
      · intro p0 hp0
        obtain ⟨hb, hps⟩ : b = p0 ∧ ps = [] := by simpa using hp0
        rw [← heq, hps, hb]
        rfl

/-- Witness for C1 at the query `(0, 0)` and the spec's scenario-A obstacle
center `(3, 4)`. -/
theorem find_nearest_object_correct_witness :
    (([((3 : ℚ), (4 : ℚ))] : List (ℚ × ℚ)) ≠ []) ∧
    (∃ p i, find_nearest_object 0 0 [((3 : ℚ), (4 : ℚ))] = some p ∧
      ([((3 : ℚ), (4 : ℚ))] : List (ℚ × ℚ)).get? i = some p ∧
      (∀ q ∈ ([((3 : ℚ), (4 : ℚ))] : List (ℚ × ℚ)),
        Real.sqrt (dist2 0 0 p : ℝ) ≤ Real.sqrt (dist2 0 0 q : ℝ)) ∧
      (∀ j q, j < i → ([((3 : ℚ), (4 : ℚ))] : List (ℚ × ℚ)).get? j = some q →
        Real.sqrt (dist2 0 0 p : ℝ) < Real.sqrt (dist2 0 0 q : ℝ)) ∧
      (∀ p0, ([((3 : ℚ), (4 : ℚ))] : List (ℚ × ℚ)) = [p0] → p = p0)) :=
  ⟨by simp, find_nearest_object_correct 0 0 [(3, 4)] (by simp)⟩

/-- C4: a frame whose obstacle list is empty reaches
`find_nearest_object(robot_x, robot_y, [])`; Python's `min` over the empty
sequence raises `ValueError` (modelled as `none`), so the frame update
aborts with an unhandled exception rather than completing. -/
theorem find_nearest_object_empty_raises :
    find_nearest_object 0 0 [] = none := rfl

/-- The radians-to-degrees conversion applied by `update_animation` when it
sets patch angles: `theta*180/3.14` (the source divides by the literal
`3.14`, not by π).  `157/50` is exactly `3.14`. -/
def degOfRad (theta : ℚ) : ℚ := theta * 180 / (157 / 50)

/-- The drawable state of a matplotlib `Rectangle` patch as far as the
source sets it: corner anchor (`set_xy` / the `xy` argument), angle in
degrees (`set_angle` / `angle`), width and height, and the constructor's
`rotation_point` argument. -/
structure PatchCfg where
  corner : ℚ × ℚ
  angleDeg : ℚ
  width : ℚ
  height : ℚ
  rotationPoint : String
  deriving DecidableEq, Repr

/-- The configuration `update_animation` writes into an obstacle patch paired
with obstacle `o`: `set_xy((obj_x - obj_extent_x/2, obj_y - obj_extent_y/2))`,
`set_angle(obj_theta*180/3.14)`, `set_width`, `set_height`; the patch was
constructed with `rotation_point='center'`. -/
def obstaclePatchCfg (o : Obstacle) : PatchCfg :=
  { corner := (o.pose.x - o.extents.1 / 2, o.pose.y - o.extents.2 / 2)
    angleDeg := degOfRad o.pose.theta
    width := o.extents.1
    height := o.extents.2
    rotationPoint := "center" }

/-- The number of obstacle patches `initialize_animation` pre-allocates:
`for object in range(0, len(self.tracked_objects))` — one patch per ingested
`tracked_objects` record (i.e. per frame snapshot), not per obstacle of any
single frame. -/
def initSlotCount (tracked_objects : List (List Obstacle)) : ℕ :=
  tracked_objects.length

/-- The obstacle-drawing loop of `update_animation`:
`for obj, obj_patch in zip(self.tracked_objects[frame], self.objects)`.
Patches are modelled by their position in `self.objects`; the result pairs
each drawn obstacle's slot index with the configuration written into that
slot.  Python's `zip` truncates to the shorter of the two sequences. -/
def updateObstaclePatches (frameObstacles : List Obstacle) (slotCount : ℕ) :
    List (ℕ × PatchCfg) :=
  (frameObstacles.zip (List.range slotCount)).map fun oq => (oq.2, obstaclePatchCfg oq.1)

/-- A first concrete obstacle. -/
def oA : Obstacle := ⟨⟨2, 0, 0⟩, (1, 1)⟩

/-- A second concrete obstacle. -/
def oB : Obstacle := ⟨⟨5, 5, 0⟩, (1, 1)⟩

/-- C5 counterexample: for the log whose single `tracked_objects` record
holds two obstacles, initialization allocates `len(self.tracked_objects) = 1`
patch — not one per maximum possible obstacle (2) — and the frame-0 update
pairs only one of the two obstacles with a patch: the second obstacle is
left undrawn. -/
theorem update_omits_second_obstacle :
    initSlotCount [[oA, oB]] = 1 ∧
    (updateObstaclePatches [oA, oB] (initSlotCount [[oA, oB]])).length ≠ [oA, oB].length := by
  constructor
  · rfl
  · simp [updateObstaclePatches, initSlotCount]

/-- C5 amended: whenever the rendered frame's obstacle list is no longer
than the allocated slot pool (one slot per ingested `tracked_objects`
record), the update pairs every obstacle of the frame positionally with a
slot — obstacle `i` goes to slot `i` — and writes that obstacle's
corner/rotation/width/height configuration into it, drawing all of them. -/
theorem update_draws_all_within_slots
    (tracked_objects : List (List Obstacle)) (frame i : ℕ)
    (fobs : List Obstacle) (o : Obstacle)
    (hf : tracked_objects.get? frame = some fobs)
    (hle : fobs.length ≤ initSlotCount tracked_objects)
    (ho : fobs.get? i = some o) :
    (updateObstaclePatches fobs (initSlotCount tracked_objects)).length = fobs.length ∧
    (updateObstaclePatches fobs (initSlotCount tracked_objects)).get? i
      = some (i, obstaclePatchCfg o) := by
  have hframe := hf
  constructor
  · simp [updateObstaclePatches, List.length_zip]
    omega
  · obtain ⟨hi, -⟩ := List.get?_eq_some.mp ho
    have hzip : (fobs.zip (List.range (initSlotCount tracked_objects))).get? i
        = some (o, i) := by
      refine List.get?_zip_eq_some _ _ _ _ |>.mpr ⟨ho, ?_⟩
      simpa using List.getElem?_range (show i < initSlotCount tracked_objects by omega)
    simp only [updateObstaclePatches, List.get?_eq_getElem?, List.getElem?_map]
    have hzip' : (fobs.zip (List.range (initSlotCount tracked_objects)))[i]? = some (o, i) := by
      simpa using hzip
    simp [hzip']

/-- Witness for C5 (amended) on a one-frame log with one obstacle. -/
theorem update_draws_all_within_slots_witness :
    ([[oA]].get? 0 = some [oA]) ∧ ([oA].length ≤ initSlotCount [[oA]]) ∧
    ([oA].get? 0 = some oA) ∧
    ((updateObstaclePatches [oA] (initSlotCount [[oA]])).length = [oA].length ∧
     (updateObstaclePatches [oA] (initSlotCount [[oA]])).get? 0
       = some (0, obstaclePatchCfg oA)) :=
  ⟨rfl, Nat.le_refl 1, rfl,
    update_draws_all_within_slots [[oA]] 0 0 [oA] oA rfl (Nat.le_refl 1) rfl⟩

/-- `update_animation` runs `initialize_animation` exactly when its guard
`if frame == 0:` holds. -/
def initTriggered (frame : ℕ) : Bool := frame == 0

/-- How many times `initialize_animation` runs over a sequence of
`update_animation` calls with the given frame indices. -/
def initRunCount (frames : List ℕ) : ℕ := (frames.filter initTriggered).length

/-- C6 counterexample: calling the frame update twice with frame index 0
runs initialization twice — the guard is `frame == 0`, not a
once-only state flag — contradicting "never re-runs initialization". -/
theorem init_reruns_on_repeated_frame_zero : initRunCount [0, 0] ≠ 1 := by decide

/-- C6 amended: initialization is triggered exactly on frame index 0, so
over the host-driven animation schedule `0, 1, ..., n-1` (each frame index
requested once, in order, as `FuncAnimation` does with
`frames=len(self.timestamps)`) it runs exactly once, on the first call;
repeated calls with frame index 0 would re-run it. -/
theorem init_once_on_host_schedule (n : ℕ) (h : 1 ≤ n) :
    initRunCount (List.range n) = 1 ∧ ∀ f, initTriggered f = true ↔ f = 0 := by
  constructor
  · induction n with
    | zero => omega
    | succ m ih =>
        by_cases hm : m = 0
        · subst hm; decide
        · have h1 : 1 ≤ m := by omega
          rw [List.range_succ, initRunCount, List.filter_append]
          have hm' : initTriggered m = false := by simp [initTriggered, hm]
          simp only [List.length_append, List.filter_cons, hm', List.filter_nil,
            List.length_nil]
          simpa [initRunCount] using ih h1
  · intro f; simp [initTriggered]

/-- Witness for C6 (amended) on a three-frame schedule. -/
theorem init_once_on_host_schedule_witness :
    1 ≤ 3 ∧ (initRunCount (List.range 3) = 1 ∧ ∀ f, initTriggered f = true ↔ f = 0) :=
  ⟨by decide, init_once_on_host_schedule 3 (by decide)⟩

/-- The same conversion `theta*180/3.14` as `degOfRad`, over the reals, so
that it can be evaluated at the claim's irrational test angles. -/
noncomputable def degOfRadR (theta : ℝ) : ℝ := theta * 180 / 3.14

/-- C7: the rotation the code applies is `theta*180/3.14`, which agrees with
`degOfRad` on every decoded (rational) heading and with the claimed
`theta*180/π` at `theta = 0`, but at `theta = π` yields strictly more than
the claimed 180 degrees (since `3.14 < π`, the error is ≈ 0.09°, far beyond
floating-point tolerance); the same divergence scales to π/2 and -π/2. -/
theorem rotation_divides_by_314 :
    (∀ q : ℚ, ((degOfRad q : ℚ) : ℝ) = degOfRadR (q : ℝ)) ∧
    degOfRadR 0 = 0 ∧
    180 < degOfRadR Real.pi ∧
    degOfRadR Real.pi ≠ 180 := by
  have key : (180 : ℝ) < degOfRadR Real.pi := by
    rw [degOfRadR, lt_div_iff₀ (by norm_num : (0 : ℝ) < 3.14)]
    nlinarith [Real.pi_gt_d6]
  refine ⟨?_, by simp [degOfRadR], key, ne_of_gt key⟩
  intro q
  push_cast [degOfRad, degOfRadR]
  norm_num

/-- The configuration `update_animation` writes into the robot patch:
`set_xy((robot_x - robot_extent_x/2, robot_y - robot_extent_y/2))` and
`set_angle(robot_theta*180/3.14)`; the patch was constructed in
`initialize_animation` with the robot extents as width/height and
`rotation_point='center'`. -/
def robotPatchCfg (pose : Pose) (ext : ℚ × ℚ) : PatchCfg :=
  { corner := (pose.x - ext.1 / 2, pose.y - ext.2 / 2)
    angleDeg := degOfRad pose.theta
    width := ext.1
    height := ext.2
    rotationPoint := "center" }

/-- C8: the robot patch's corner anchor is `(x - width/2, y - height/2)`,
so the rectangle's geometric center `corner + (width/2, height/2)` sits
exactly at the robot pose's `(x, y)`, and rotation is about the center. -/
theorem robot_center_at_pose (pose : Pose) (ext : ℚ × ℚ) :
    (robotPatchCfg pose ext).corner = (pose.x - ext.1 / 2, pose.y - ext.2 / 2) ∧
    (robotPatchCfg pose ext).corner.1 + (robotPatchCfg pose ext).width / 2 = pose.x ∧
    (robotPatchCfg pose ext).corner.2 + (robotPatchCfg pose ext).height / 2 = pose.y ∧
    (robotPatchCfg pose ext).rotationPoint = "center" := by
  refine ⟨rfl, ?_, ?_, rfl⟩ <;> simp [robotPatchCfg]

/-- Python list indexing `l[i]`: a nonnegative index reads positionally, an
index in `[-len(l), -1]` wraps around from the end, anything else raises
`IndexError` (modelled as `none`). -/
def pyIndex {α : Type*} (l : List α) (i : ℤ) : Option α :=
  if 0 ≤ i then l.get? i.toNat
  else if 0 ≤ i + l.length then l.get? (i + l.length).toNat
  else none

/-- The first read `update_animation` performs for a frame:
`robot_x, robot_y, robot_theta = self.odometry[frame]`, with Python list
indexing semantics. -/
def readFramePose (odometry : List Pose) (frame : ℤ) : Option Pose :=
  pyIndex odometry frame

/-- A concrete odometry pose. -/
def poseW : Pose := ⟨1, 2, 3⟩

/-- C9 counterexample: frame index -1 lies outside `[0, len(timestamps))`,
yet on a one-frame log `self.odometry[-1]` succeeds and reads the last pose
(Python negative-index wrap-around), so the frame update is not an
out-of-range error there. -/
theorem negative_index_reads_pose :
    ¬ (0 ≤ (-1 : ℤ)) ∧ readFramePose [poseW] (-1) = some poseW :=
  ⟨by decide, rfl⟩

/-- C9 amended: reading the frame's pose fails (raises `IndexError`) exactly
for frame indices outside `[-len(odometry), len(odometry))`; indices in
`[0, len)` read positionally and indices in `[-len, -1]` succeed by wrapping
around from the end, so only indices ≥ `len(timestamps)` (= `len(odometry)`,
see the C10 theorem) or < `-len` are out-of-range errors. -/
theorem readFramePose_none_iff (l : List Pose) (i : ℤ) :
    readFramePose l i = none ↔ (i < -(l.length : ℤ) ∨ (l.length : ℤ) ≤ i) := by
  unfold readFramePose pyIndex
  split_ifs with h1 h2 <;>
    simp [List.get?_eq_getElem?, List.getElem?_eq_none_iff] <;> omega

end MCAPVisualizer
